import Mathlib

/-!
Verification development for the RAG UMF/CNJ application
(`app.py`, `utils/pdf_loader.py`, `utils/embeddings.py`, `utils/rag_chain.py`,
`utils/chat_memory.py`).

The pure computations of the source (text extraction and normalisation,
metadata parsing, prompt assembly) are embedded as executable Lean functions
over `String`/`List Char`.  The stateful parts (the persisted vector-store
directory, the Streamlit session state, the error handlers) are embedded as
explicit state-passing functions over small record types, with the calls the
source performs recorded as explicit action traces, so that ordering claims
can be stated about them.  External collaborators (ChromaDB, the OpenAI
embedding and chat models, the langchain text splitter) are modelled as
opaque function parameters or oracles, following the contracts the spec gives
to them.
-/

namespace RagUmf

/-! ## Python string primitives, modelled over `List Char` -/

/-- Model of Python whitespace (`\s`, `str.strip`) on the character classes
that occur in this code base. -/
def wsChar (c : Char) : Bool := c.isWhitespace

/-- Model of Python `str.strip()`: drop leading and trailing whitespace. -/
def pyStrip (l : List Char) : List Char :=
  ((l.dropWhile wsChar).reverse.dropWhile wsChar).reverse

/-- Model of the Python `in` operator on strings (substring test). -/
def isInfixL (pat s : List Char) : Bool :=
  match s with
  | [] => pat.isEmpty
  | _ :: rest => pat.isPrefixOf s || isInfixL pat rest

/-- Fuelled worker for `replaceAll`; the fuel is the length of the subject,
which bounds the number of steps since each step consumes at least one
character. -/
def replaceAllF (pat rep : List Char) : Nat → List Char → List Char
  | _, [] => []
  | 0, s => s
  | fuel + 1, c :: rest =>
    if !pat.isEmpty && pat.isPrefixOf (c :: rest) then
      rep ++ replaceAllF pat rep fuel (rest.drop (pat.length - 1))
    else
      c :: replaceAllF pat rep fuel rest

/-- Model of Python `str.replace(pat, rep)`: replace every non-overlapping
occurrence of `pat`, scanning left to right. -/
def replaceAll (pat rep s : List Char) : List Char :=
  replaceAllF pat rep s.length s

/-- Model of Python `s.split("\n\n", 1)`: `some (before, after)` when the
separator occurs (split at its first occurrence), `none` when it does not. -/
def splitBlank : List Char → Option (List Char × List Char)
  | [] => none
  | c :: rest =>
    if c = '\n' ∧ rest.head? = some '\n' then some ([], rest.drop 1)
    else
      match splitBlank rest with
      | some (a, b) => some (c :: a, b)
      | none => none

/-- Worker for `subWs`. The flag records whether the previous character was
whitespace, so that a maximal whitespace run emits a single space. -/
def subWsAux (prevWs : Bool) : List Char → List Char
  | [] => []
  | c :: rest =>
    if wsChar c then
      if prevWs then subWsAux true rest else ' ' :: subWsAux true rest
    else
      c :: subWsAux false rest

/-- Model of Python `re.sub(r"\s+", " ", texto)`: each maximal whitespace run
becomes a single space. -/
def subWs (l : List Char) : List Char := subWsAux false l

/-- Model of `os.path.basename` on POSIX paths. -/
def basename (p : String) : String := ⟨(p.data.reverse.takeWhile (· ≠ '/')).reverse⟩

/-- The connection-refused tenant signature tested by `app.py` (lines 241-244
and 461-464): the error text must contain both `"tenant default_tenant"` and
`"Could not connect"`. -/
def tenantSignature (e : String) : Bool :=
  isInfixL "tenant default_tenant".data e.data && isInfixL "Could not connect".data e.data

/-! ## `utils/pdf_loader.py` -/

/-- The sentence-ending punctuation class `[.!?]` of `limpar_texto`. -/
def punctChar (c : Char) : Bool := c = '.' || c = '!' || c = '?'

/-- The character class `[A-ZÀ-Ú]` of the second regex in `limpar_texto`
(`pdf_loader.py` line 54): the ASCII range A-Z together with the Latin-1
range U+00C0 to U+00DA. -/
def classeAZ (c : Char) : Bool :=
  ('A' ≤ c && c ≤ 'Z') || ('À' ≤ c && c ≤ 'Ú')

/-- Model of `re.sub(r"([.!?]) ([A-ZÀ-Ú])", r"\1\n\n\2", texto_limpo)`:
scan left to right; at a match of punctuation, space, class character, emit
punctuation, two newlines and the class character, and resume after the
match (re.sub replaces non-overlapping matches). Parameterised by the
character class so that the claim-side class can be compared with the
source's class. -/
def inserirQuebras (cls : Char → Bool) : List Char → List Char
  | [] => []
  | [a] => [a]
  | [a, b] => [a, b]
  | a :: b :: c :: rest =>
    if punctChar a && (b = ' ') && cls c then
      a :: '\n' :: '\n' :: c :: inserirQuebras cls rest
    else
      a :: inserirQuebras cls (b :: c :: rest)

/-- The first phase of `limpar_texto` (line 50):
`re.sub(r"\s+", " ", texto).strip()`. -/
def collapseWs (l : List Char) : List Char := pyStrip (subWs l)

/-- Model of `limpar_texto` (`pdf_loader.py` lines 39-56): collapse whitespace
runs and strip, then reinsert double newlines after punctuation followed by a
space and a character of `[A-ZÀ-Ú]`. -/
def limpar_texto (texto : String) : String :=
  ⟨inserirQuebras classeAZ (collapseWs texto.data)⟩

/-- Abstract file system seen by the PDF loader: the set of existing paths,
and for each path the outcome of `fitz` parsing — `some pages` yields the
per-page texts, `none` models an internal parse failure (an exception raised
inside the `with fitz.open` block). -/
structure PdfFS where
  files : List String
  parse : String → Option (List String)

/-- Model of `extrair_texto_pdf` (`pdf_loader.py` lines 14-36): raise
`FileNotFoundError` when the path does not exist; otherwise join the page
texts with newlines replaced by spaces and a double newline after each page,
strip the result; an internal parse failure is caught and yields `""`. -/
def extrair_texto_pdf (fs : PdfFS) (file_path : String) : Except String String :=
  if file_path ∈ fs.files then
    match fs.parse file_path with
    | some pages =>
        .ok ⟨pyStrip (pages.foldl
              (fun acc t => acc ++ replaceAll ['\n'] [' '] t.data ++ ['\n', '\n']) [])⟩
    | none => .ok ""
  else
    .error ("O arquivo " ++ file_path ++ " não foi encontrado.")

/-- A langchain `Document`: page content plus the optional `source` metadata
entry (read back with `metadata.get("source", "Desconhecido")`). -/
structure Doc where
  page_content : String
  source : Option String
deriving DecidableEq, Repr

/-- Model of `load_pdf` (`pdf_loader.py` lines 59-85): the `try` block wraps
the extraction, so the not-found error is caught and converted to `[]`; empty
extracted text also yields `[]`; otherwise one document with the cleaned text
and the basename as source. -/
def load_pdf (fs : PdfFS) (file_path : String) : List Doc :=
  match extrair_texto_pdf fs file_path with
  | .error _ => []
  | .ok texto_bruto =>
    if texto_bruto = "" then []
    else [{ page_content := limpar_texto texto_bruto, source := some (basename file_path) }]

/-- Model of `process_pdf` (`pdf_loader.py` lines 114-138). The chunker
(`split_documents`, a wrapper of langchain's `RecursiveCharacterTextSplitter`,
an external collaborator) is passed as an opaque total function. -/
def process_pdf (split : List Doc → List Doc) (fs : PdfFS) (file_path : String) : List Doc :=
  let documents := load_pdf fs file_path
  if documents.isEmpty then [] else split documents

/-! ## Claim-side definitions for the `limpar_texto` claims -/

/-- Modelled from the claim's words: an uppercase letter. For the Latin-1
repertoire the code works in, the uppercase letters are A-Z, À-Ö and Ø-Þ
(U+00D7 is the multiplication sign, not a letter). -/
def isUpperLetter (c : Char) : Bool :=
  ('A' ≤ c && c ≤ 'Z') || ('À' ≤ c && c ≤ 'Ö') || ('Ø' ≤ c && c ≤ 'Þ')

/-- Whether the list starts with a break-insertion match: punctuation, then a
space, then a character of the class. -/
def matchesAt (cls : Char → Bool) : List Char → Bool
  | a :: b :: c :: _ => punctChar a && (b = ' ') && cls c
  | _ => false

/-- Relational description of the break-insertion phase, following the
claim's words: a double newline is inserted exactly after each occurrence of
sentence-ending punctuation followed by a space and a character of the class
`cls`, occurrences taken left to right and non-overlapping; all other
characters are copied unchanged. -/
inductive InsertSpec (cls : Char → Bool) : List Char → List Char → Prop where
  | nil : InsertSpec cls [] []
  | brk : ∀ a c rest out, punctChar a = true → cls c = true →
      InsertSpec cls rest out →
      InsertSpec cls (a :: ' ' :: c :: rest) (a :: '\n' :: '\n' :: c :: out)
  | keep : ∀ a rest out, matchesAt cls (a :: rest) = false →
      InsertSpec cls rest out →
      InsertSpec cls (a :: rest) (a :: out)

/-- Adjacency invariant of collapsed text: every whitespace character is a
plain space, and no whitespace character is followed by another whitespace
character. -/
def wsOk : List Char → Bool
  | [] => true
  | [c] => !wsChar c || c = ' '
  | c1 :: c2 :: rest => (!wsChar c1 || ((c1 = ' ') && !wsChar c2)) && wsOk (c2 :: rest)

/-- The claim's description of the first phase: all whitespace runs collapsed
to single plain spaces, none at either end. -/
def isCollapsed (l : List Char) : Bool :=
  (l.head?.all fun c => !wsChar c) && (l.getLast?.all fun c => !wsChar c) && wsOk l

/-! ## Claim-side definition for the metadata claims -/

/-- Modelled from the claim's words "filename with its extension removed":
drop the final dot-separated component, when there is a dot. -/
def filenameStem (s : String) : String :=
  if '.' ∈ s.data then ⟨((s.data.reverse.dropWhile (· ≠ '.')).drop 1).reverse⟩ else s

/-! ## `utils/embeddings.py` -/

/-- A file under the persist directory of the vector store; `deletable`
models whether removing it succeeds (a transiently locked file does not). -/
structure PFile where
  name : String
  deletable : Bool
deriving DecidableEq, Repr

/-- State of the persist directory of the vector store: whether it exists and
its contents. -/
structure PDir where
  present : Bool
  files : List PFile
deriving DecidableEq, Repr

/-- Outcome of the external backend calls inside the `try` of
`create_vector_store` (`chromadb.PersistentClient` / `Chroma.from_documents`
/ `persist`): on success the index files written under the directory the
client created; on failure the text of the raised exception together with the
state the backend left the persist directory in — it may have created the
directory and written part of the index, or failed before creating it. -/
inductive BackendOutcome where
  | ok (written : List PFile)
  | fail (e : String) (dirAfter : PDir)
deriving DecidableEq, Repr

/-- Model of `shutil.rmtree(persist_directory)` inside the cleanup block:
removes every removable entry and raises when some entry cannot be removed,
the unremovable entries surviving in the still-present directory. -/
def rmtreePersist (d : PDir) : Except PDir Unit :=
  let undel := d.files.filter (fun f => !f.deletable)
  if undel.isEmpty then .ok () else .error { present := true, files := undel }

/-- Model of `create_vector_store` (`embeddings.py` lines 29-87). On failure
the `except` block performs a best-effort cleanup: only when a persist
directory was given and it exists (`if persist_directory and
os.path.exists(persist_directory)`), it runs `shutil.rmtree` then
`os.makedirs` inside an inner `try` whose errors are printed and swallowed —
a failing `rmtree` leaves the surviving entries in place, a failing
`os.makedirs` (oracle `mkdirOk`) leaves the directory absent.  The original
exception is re-raised in every case. -/
def create_vector_store (persist : Option PDir) (outcome : BackendOutcome)
    (mkdirOk : Bool) : Option PDir × Except String Unit :=
  match outcome with
  | .ok written =>
      (persist.map (fun d =>
        { present := true, files := (if d.present then d.files else []) ++ written }), .ok ())
  | .fail e dirAfter =>
    match persist with
    | none => (none, .error e)
    | some _ =>
      if dirAfter.present then
        match rmtreePersist dirAfter with
        | .ok _ =>
            if mkdirOk then (some { present := true, files := [] }, .error e)
            else (some { present := false, files := [] }, .error e)
        | .error d2 => (some d2, .error e)
      else (some dirAfter, .error e)

/-! ## `utils/rag_chain.py` -/

/-- A chat message of the conversation memory. -/
structure ChatMsg where
  role : String
  content : String
deriving DecidableEq, Repr

/-- Model of `format_docs` (`rag_chain.py` lines 37-51):
join `"DOCUMENTO [source]:\n" + page_content` blocks with blank lines. -/
def format_docs (docs : List Doc) : String :=
  String.intercalate "\n\n"
    (docs.map (fun d => "DOCUMENTO [" ++ d.source.getD "Desconhecido" ++ "]:\n" ++ d.page_content))

/-- The literal `RAG_PROMPT_TEMPLATE` (`rag_chain.py` lines 15-34) as a
function of its three holes (the trailing spaces inside two lines are in the
source). -/
def ragPromptTemplate (chat_history context question : String) : String :=
  "\nVocê é um assistente especializado em direitos humanos e no Sistema Interamericano de Direitos Humanos.\nSua função é responder perguntas sobre os documentos da Unidade de Monitoramento e Fiscalização do Sistema Interamericano de Direitos Humanos (UMF/CNJ).\n\nUtilize apenas o contexto fornecido abaixo para responder à pergunta. Se a informação não estiver no contexto, \ndiga que não possui essa informação e sugira que o usuário reformule a pergunta ou consulte os documentos originais \nda UMF/CNJ.\n\nAo citar informações, mencione de qual documento elas foram extraídas.\n\nHistórico da conversa:\n"
  ++ chat_history ++ "\n\nContexto:\n" ++ context ++ "\n\nPergunta: " ++ question ++ "\n\nResposta:\n"

/-- The vector store as the retrieval layer sees it. Modelled from the spec:
`VectorIndex.search` ranks the stored chunks by similarity to the query (the
backing ChromaDB engine is an external collaborator, so the ranking is an
opaque function). -/
structure VectorStore where
  rank : String → List Doc

/-- Modelled from the spec: the retriever wraps similarity search with a
fixed result count, keeping the `k` most similar chunks
(`vector_store.as_retriever(search_type="similarity", search_kwargs=k)`). -/
def as_retriever (vs : VectorStore) (k : Nat) (q : String) : List Doc :=
  (vs.rank q).take k

/-- Model of `create_rag_chain` (`rag_chain.py` lines 54-100): the chain
formats the retrieved documents as the context, renders the memory's messages
as the chat history (an empty list without memory), fills the fixed template,
and passes it to the language model. `render` stands for the stringification
the prompt template applies to the message list. -/
def create_rag_chain (retriever : String → List Doc) (llm : String → String)
    (memory : Option (List ChatMsg)) (render : List ChatMsg → String)
    (question : String) : String :=
  let context := format_docs (retriever question)
  let chat_history :=
    match memory with
    | some msgs => render msgs
    | none => render []
  llm (ragPromptTemplate chat_history context question)

/-- Model of `initialize_rag_chain` (`app.py` lines 281-299): the chain is
built over `as_retriever` with `k = 15` and the conversation memory. -/
def init_rag_chain (vs : VectorStore) (llm : String → String)
    (memory : List ChatMsg) (render : List ChatMsg → String) (question : String) : String :=
  create_rag_chain (as_retriever vs 15) llm (some memory) render question

/-! ## `app.py`: the vector-store directory and the recovery logic -/

/-- A file under `data/vectordb`. `deletable` models whether removing it
succeeds (locked files on Windows fail), `writable` whether opening it in
append mode succeeds (the accessibility probe of `cleanup_orphaned_vectordb`),
`content` its text. -/
structure VFile where
  name : String
  deletable : Bool
  writable : Bool
  content : String
deriving DecidableEq, Repr

/-- State of the `data/vectordb` directory. -/
structure VDir where
  present : Bool
  files : List VFile
deriving DecidableEq, Repr

/-- Model of `shutil.rmtree`: removes every removable entry; raises when some
entry cannot be removed, the undeletable entries surviving. -/
def rmtreeModel (d : VDir) : Except (List VFile) Unit :=
  let undel := d.files.filter (fun f => !f.deletable)
  if undel.isEmpty then .ok () else .error undel

/-- Model of `force_clean_vectordb` (`app.py` lines 71-112): when the
directory is absent, recreate it and return `True`; otherwise try
`shutil.rmtree`, falling back to per-entry deletion (failures ignored) when it
raises, then `os.makedirs(exist_ok=True)` and return `True`. -/
def force_clean_vectordb (d : VDir) : VDir × Bool :=
  if d.present = false then ({ present := true, files := [] }, true)
  else
    match rmtreeModel d with
    | .ok _ => ({ present := true, files := [] }, true)
    | .error undel => ({ present := true, files := undel }, true)

/-- The marker file name used by the recovery logic. -/
def flagName : String := "tenant_error.flag"

/-- Whether the `tenant_error.flag` marker exists under the directory. -/
def hasFlag (d : VDir) : Bool :=
  d.present && d.files.any (fun f => f.name == flagName)

/-- Model of `open(error_flag_path, "w"); f.write(diag)`: create or truncate
the marker file with the diagnostic text. -/
def writeFlag (diag : String) (d : VDir) : VDir :=
  { present := true,
    files := { name := flagName, deletable := true, writable := true, content := diag } ::
             d.files.filter (fun f => f.name != flagName) }

/-- Session plus on-disk state relevant to the recovery logic:
`vectorStoreLoaded` models `st.session_state.vector_store is not None`,
`tenantErrorDetected` the session flag of the same name. -/
structure AppState where
  vdir : VDir
  vectorStoreLoaded : Bool
  tenantErrorDetected : Bool
deriving DecidableEq, Repr

/-- The externally visible calls the recovery logic performs, recorded as a
trace so ordering claims can be stated. -/
inductive Action where
  | loadStore
  | setSessionFlag
  | writeFlagFile (diag : String)
  | cleanStore
  | releaseHandle
  | surfaceRepair
  | surfaceError (msg : String)
  | cleanupCheck
deriving DecidableEq, Repr

/-- Model of the `except` handler of `initialize_vector_store` (`app.py`
lines 238-268), given the text of the exception raised by
`load_vector_store`: on the tenant signature it sets the session flag, writes
the marker file, force-cleans the directory, surfaces the repair-needed
warning and releases the handle (`vector_store = None`); any other error is
only surfaced. -/
def open_failure_handler (st : AppState) (e : String) : AppState × List Action :=
  if tenantSignature e then
    let st1 : AppState := { st with tenantErrorDetected := true }
    let st2 : AppState := { st1 with vdir := writeFlag ("Error detected: " ++ e) st1.vdir }
    let st3 : AppState := { st2 with vdir := (force_clean_vectordb st2.vdir).1 }
    let st4 : AppState := { st3 with vectorStoreLoaded := false }
    (st4, [.setSessionFlag, .writeFlagFile ("Error detected: " ++ e), .cleanStore,
           .surfaceRepair, .releaseHandle])
  else
    (st, [.surfaceError e])

/-- Model of the `except` handler around `create_vector_store`/`add_documents`
in `process_uploaded_file` (`app.py` lines 459-475), plus the enclosing
`except` (lines 486-489) that catches the re-raise of non-matching errors.
The returned `Bool` is the value `process_uploaded_file` returns. On the
tenant signature the handler sets the session flag, writes the marker file and
surfaces the repair-needed error, and returns `False`. -/
def add_failure_handler (st : AppState) (e : String) : (AppState × List Action) × Bool :=
  if tenantSignature e then
    let st1 : AppState :=
      { st with tenantErrorDetected := true,
                vdir := writeFlag ("Error detected during processing: " ++ e) st.vdir }
    ((st1, [.setSessionFlag, .writeFlagFile ("Error detected during processing: " ++ e),
            .surfaceRepair]), false)
  else
    ((st, [.surfaceError e]), false)

/-- Model of the pre-add check of `process_uploaded_file` (`app.py` lines
427-438): when the marker file exists or the session flag is set, force-clean
the directory, remove the marker, clear the session flag, and release the
handle, before creating the new store. -/
def pre_add_check (st : AppState) : AppState × List Action :=
  if hasFlag st.vdir || st.tenantErrorDetected then
    let d1 := (force_clean_vectordb st.vdir).1
    let d2 : VDir := { d1 with files := d1.files.filter (fun f => f.name != flagName) }
    ({ st with vdir := d2, tenantErrorDetected := false, vectorStoreLoaded := false },
     [.cleanStore, .releaseHandle])
  else (st, [])

/-- Model of `initialize_vector_store` (`app.py` lines 177-278) as far as the
recovery logic is concerned (the metadata regeneration sub-loop of the
success path touches neither the store directory nor the handles and is
elided). `loadResult` is the oracle for the external `load_vector_store`
call: `none` means it succeeds, `some e` that it raises `e`. The load is only
attempted when no handle is held and the persisted directory has content. -/
def init_vector_store (st : AppState) (loadResult : Option String) : AppState × List Action :=
  if st.vectorStoreLoaded then (st, [])
  else if st.vdir.present && !st.vdir.files.isEmpty then
    match loadResult with
    | none => ({ st with vectorStoreLoaded := true }, [.loadStore])
    | some e =>
        let r := open_failure_handler st e
        (r.1, .loadStore :: r.2)
  else (st, [])

/-- Model of `cleanup_orphaned_vectordb` (`app.py` lines 115-158): when the
directory has content, force-clean it if the marker file exists, otherwise
probe every file for writability and force-clean when some file is
inaccessible; returns whether a cleanup happened. -/
def cleanup_orphaned_vectordb (d : VDir) : VDir × Bool :=
  if d.present && !d.files.isEmpty then
    if hasFlag d then ((force_clean_vectordb d).1, true)
    else if d.files.all (fun f => f.writable) then (d, false)
    else ((force_clean_vectordb d).1, true)
  else (d, false)

/-- The startup slice of `main` (`app.py` lines 617-718) restricted to the
calls that touch the vector store, in source order: `initialize_vector_store`
(line 620), `cleanup_orphaned_vectordb` (line 641), and the second
`initialize_vector_store` (line 714). -/
def main_trace (st : AppState) (loadResult : Option String) : AppState × List Action :=
  let r1 := init_vector_store st loadResult
  let r2 := cleanup_orphaned_vectordb r1.1.vdir
  let st2 : AppState := { r1.1 with vdir := r2.1 }
  let r3 := init_vector_store st2 loadResult
  (r3.1, r1.2 ++ Action.cleanupCheck :: r3.2)

/-- The ordering property claim C1 asserts of a startup trace: every call of
`load_vector_store` comes after `cleanup_orphaned_vectordb` has run. -/
def noLoadBeforeCleanup (tr : List Action) : Prop :=
  ∀ i j, tr.get? i = some Action.loadStore → tr.get? j = some Action.cleanupCheck → j < i

/-! ## `app.py`: metadata extraction -/

/-- The default summary of `extract_document_metadata` (lines 326 and 373). -/
def defaultResumo : String := "Não foi possível gerar um resumo deste documento."

/-- The placeholder summary used when the model response has no blank-line
separator (line 361). -/
def resumoNaoDisponivel : String := "Resumo não disponível."

/-- The f-string prompt of `extract_document_metadata` (lines 342-351) as a
function of its hole. -/
def metadataPrompt (texto_inicial : String) : String :=
  "\n        Analise o início deste Relatório Final e extraia:\n        1. O título de Relatório UMF/CNJ, seguido do ano de produção, ex: \"Relatório UMF/CNJ 2021\"\n        2. Um resumo conciso do conteúdo em até 100 palavras\n\n        Texto do documento:\n        "
  ++ texto_inicial
  ++ "\n        \n        Responda apenas com o título e resumo separados por uma linha em branco.\n        "

/-- Result of `extract_document_metadata`, with the prompt the model was
invoked on (`none` when no model call happened). -/
structure MetaCall where
  title : String
  summary : String
  sentPrompt : Option String
deriving DecidableEq, Repr

/-- Model of Python `resp.split("\n\n", 1)` returning the list of parts. -/
def pySplit1Blank (s : String) : List String :=
  match splitBlank s.data with
  | some (a, b) => [⟨a⟩, ⟨b⟩]
  | none => [s]

/-- Model of `extract_document_metadata` (`app.py` lines 310-374). The
language model is an opaque text-to-text function; the `try` around the model
call is not modelled failing since the model is total here (its failure
branch returns the same defaults as the short-circuit). -/
def extract_document_metadata (document_content : String) (file_name : String)
    (llm : String → String) : MetaCall :=
  if document_content = "" ∨ document_content.length < 50 then
    { title := ⟨replaceAll ".pdf".data [] file_name.data⟩,
      summary := defaultResumo, sentPrompt := none }
  else
    let texto_inicial : String :=
      if document_content.length > 8000 then ⟨document_content.data.take 8000⟩
      else document_content
    let p := metadataPrompt texto_inicial
    let resp : String := ⟨pyStrip (llm p).data⟩
    let partes := pySplit1Blank resp
    let pair : String × String :=
      match partes with
      | t :: r :: _ => (⟨pyStrip t.data⟩, ⟨pyStrip r.data⟩)
      | [t] => (⟨pyStrip t.data⟩, resumoNaoDisponivel)
      | [] => ("", resumoNaoDisponivel)
    let titulo : String :=
      if pair.1 = "" then ⟨replaceAll ".pdf".data [] file_name.data⟩ else pair.1
    { title := titulo, summary := pair.2, sentPrompt := some p }

/-- The claim-side parsing shape for C6: strip once and branch on the first
blank line, substituting the filename default for an empty title. -/
def nzTitle (file_name t : String) : String :=
  if t = "" then ⟨replaceAll ".pdf".data [] file_name.data⟩ else t

/-! ## Concrete inputs used by witnesses and counterexamples -/

/-- A tenant-signature error text as ChromaDB produces it. -/
def e0 : String := "Could not connect to tenant default_tenant. Are you sure it exists?"

/-- A session state holding a live handle over an empty directory. -/
def st0 : AppState :=
  { vdir := { present := true, files := [] },
    vectorStoreLoaded := true, tenantErrorDetected := false }

/-- A fresh startup state whose persisted directory still holds a marker file
from a previous crashed session. -/
def stStart : AppState :=
  { vdir := { present := true,
              files := [{ name := flagName, deletable := true, writable := true,
                          content := "Error detected: boom" }] },
    vectorStoreLoaded := false, tenantErrorDetected := false }

/-- A tiny file system with one parseable-less PDF, for the extractor claims. -/
def fsA : PdfFS := { files := ["a.pdf"], parse := fun _ => none }

/-- A tiny file system for the ingestion claims. -/
def fsB : PdfFS := { files := ["data/pdfs/b.pdf"], parse := fun _ => none }

/-- A fifty-character document text. -/
def t50 : String := ⟨List.replicate 50 'a'⟩

/-- A one-chunk store for the RAG assembly witness. -/
def dW : Doc := { page_content := "conteudo do relatorio", source := some "relatorio.pdf" }

/-- Its vector store. -/
def vsW : VectorStore := { rank := fun _ => [dW] }

/-- A directory with one ordinary index file. -/
def d0 : VDir :=
  { present := true, files := [{ name := "chroma.sqlite3", deletable := true,
                                 writable := true, content := "" }] }

/-- A persist path that did not exist before the create call. -/
def dNew : PDir := { present := false, files := [] }

/-- A partially written persist directory whose index file is transiently
locked, so the cleanup's `rmtree` fails on it. -/
def dPartial : PDir := { present := true, files := [{ name := "chroma.sqlite3", deletable := false }] }

/-- A partially written persist directory whose index file is removable. -/
def dClean : PDir := { present := true, files := [{ name := "chroma.sqlite3", deletable := true }] }

/-! ## Helper lemmas about whitespace collapsing -/

theorem dropWhile_head_ws_false (p : Char → Bool) :
    ∀ (l : List Char) (c : Char), (l.dropWhile p).head? = some c → p c = false := by
  intro l
  induction l with
  | nil => simp
  | cons a rest ih =>
    intro c h
    rw [List.dropWhile_cons] at h
    by_cases ha : p a
    · exact ih c (by simpa [ha] using h)
    · have hac : a = c := by simpa [ha] using h
      subst hac
      simpa using ha

theorem subWsAux_true_head (l : List Char) :
    ∀ c, (subWsAux true l).head? = some c → wsChar c = false := by
  induction l with
  | nil => simp [subWsAux]
  | cons a rest ih =>
    intro c h
    by_cases ha : wsChar a
    · exact ih c (by simpa [subWsAux, ha] using h)
    · have hac : a = c := by simpa [subWsAux, ha] using h
      subst hac
      simpa using ha

theorem wsOk_cons_of (c : Char) (l : List Char) (hl : wsOk l = true)
    (hc : wsChar c = false ∨ (c = ' ' ∧ ∀ d, l.head? = some d → wsChar d = false)) :
    wsOk (c :: l) = true := by
  cases l with
  | nil =>
    rcases hc with h | ⟨h, _⟩ <;> simp [wsOk, h]
  | cons d t =>
    have hcd : (!wsChar c || ((c = ' ') && !wsChar d)) = true := by
      rcases hc with h | ⟨h1, h2⟩
      · simp [h]
      · simp [h1, h2 d rfl]
    simpa [wsOk, hl] using hcd

theorem wsOk_subWsAux : ∀ (l : List Char) (b : Bool), wsOk (subWsAux b l) = true := by
  intro l
  induction l with
  | nil => intro b; simp [subWsAux, wsOk]
  | cons c rest ih =>
    intro b
    by_cases hc : wsChar c
    · cases b with
      | true => simpa [subWsAux, hc] using ih true
      | false =>
        have hrw : subWsAux false (c :: rest) = ' ' :: subWsAux true rest := by
          simp [subWsAux, hc]
        rw [hrw]
        exact wsOk_cons_of ' ' _ (ih true) (Or.inr ⟨rfl, fun d hd => subWsAux_true_head rest d hd⟩)
    · have hrw : subWsAux b (c :: rest) = c :: subWsAux false rest := by
        simp [subWsAux, hc]
      rw [hrw]
      exact wsOk_cons_of c _ (ih false) (Or.inl (by simpa using hc))

theorem wsOk_tail (x : Char) (l : List Char) (h : wsOk (x :: l) = true) : wsOk l = true := by
  cases l with
  | nil => simp [wsOk]
  | cons y t =>
    have h2 := (by simpa [wsOk, Bool.and_eq_true] using h :
      (!wsChar x || ((x = ' ') && !wsChar y)) = true ∧ wsOk (y :: t) = true)
    exact h2.2

theorem wsOk_append_left : ∀ (a b : List Char), wsOk (a ++ b) = true → wsOk a = true := by
  intro a
  induction a with
  | nil => intro b _; simp [wsOk]
  | cons x a2 ih =>
    intro b h
    cases a2 with
    | nil =>
      cases b with
      | nil => simpa using h
      | cons y t =>
        have h2 := (by simpa [wsOk, Bool.and_eq_true] using h :
          (!wsChar x || ((x = ' ') && !wsChar y)) = true ∧ wsOk (y :: t) = true)
        cases hx : wsChar x with
        | false => simp [wsOk, hx]
        | true =>
          have h3 := h2.1
          rw [hx] at h3
          simp at h3
          simp [wsOk, h3.1]
    | cons z a3 =>
      have h2 := (by simpa [wsOk, Bool.and_eq_true] using h :
        (!wsChar x || ((x = ' ') && !wsChar z)) = true ∧ wsOk (z :: (a3 ++ b)) = true)
      have h4 : wsOk (z :: a3) = true := ih b (by simpa using h2.2)
      simpa [wsOk, h4] using h2.1

theorem wsOk_append_right : ∀ (a b : List Char), wsOk (a ++ b) = true → wsOk b = true := by
  intro a
  induction a with
  | nil => intro b h; simpa using h
  | cons x a2 ih =>
    intro b h
    exact ih b (wsOk_tail x _ (by simpa using h))

theorem isCollapsed_collapseWs (l : List Char) : isCollapsed (collapseWs l) = true := by
  have hsub : wsOk (subWs l) = true := wsOk_subWsAux l false
  have hmws : wsOk ((subWs l).dropWhile wsChar) = true := by
    refine wsOk_append_right ((subWs l).takeWhile wsChar) _ ?_
    rw [List.takeWhile_append_dropWhile]
    exact hsub
  have hdec2 : (subWs l).dropWhile wsChar
      = (((subWs l).dropWhile wsChar).reverse.dropWhile wsChar).reverse
        ++ (((subWs l).dropWhile wsChar).reverse.takeWhile wsChar).reverse := by
    calc (subWs l).dropWhile wsChar
        = ((subWs l).dropWhile wsChar).reverse.reverse := (List.reverse_reverse _).symm
      _ = (((subWs l).dropWhile wsChar).reverse.takeWhile wsChar
            ++ ((subWs l).dropWhile wsChar).reverse.dropWhile wsChar).reverse := by
            rw [List.takeWhile_append_dropWhile]
      _ = _ := by rw [List.reverse_append]
  have hS : collapseWs l
      = (((subWs l).dropWhile wsChar).reverse.dropWhile wsChar).reverse := rfl
  rw [hS]
  have hS_ws : wsOk ((((subWs l).dropWhile wsChar).reverse.dropWhile wsChar).reverse) = true :=
    wsOk_append_left _ _ (by rw [← hdec2]; exact hmws)
  have hS_last : ∀ c,
      ((((subWs l).dropWhile wsChar).reverse.dropWhile wsChar).reverse).getLast? = some c →
      wsChar c = false := by
    intro c h
    rw [List.getLast?_reverse] at h
    exact dropWhile_head_ws_false wsChar _ c h
  have hS_head : ∀ c,
      ((((subWs l).dropWhile wsChar).reverse.dropWhile wsChar).reverse).head? = some c →
      wsChar c = false := by
    intro c h
    refine dropWhile_head_ws_false wsChar (subWs l) c ?_
    rw [hdec2]
    cases hcase : (((subWs l).dropWhile wsChar).reverse.dropWhile wsChar).reverse with
    | nil => rw [hcase] at h; simp at h
    | cons c0 t =>
      rw [hcase] at h
      simp at h
      subst h
      simp [hcase]
  have hh : ((((subWs l).dropWhile wsChar).reverse.dropWhile wsChar).reverse).head?.all
      (fun c => !wsChar c) = true := by
    cases hh2 : ((((subWs l).dropWhile wsChar).reverse.dropWhile wsChar).reverse).head? with
    | none => rfl
    | some c => simp [hS_head c hh2]
  have hl2 : ((((subWs l).dropWhile wsChar).reverse.dropWhile wsChar).reverse).getLast?.all
      (fun c => !wsChar c) = true := by
    cases hl3 : ((((subWs l).dropWhile wsChar).reverse.dropWhile wsChar).reverse).getLast? with
    | none => rfl
    | some c => simp [hS_last c hl3]
  simp only [isCollapsed]
  rw [hh, hl2, hS_ws]
  rfl

/-! ## Helper lemma about break insertion -/

theorem insertSpec_inserirQuebras (cls : Char → Bool) :
    ∀ l, InsertSpec cls l (inserirQuebras cls l)
  | [] => InsertSpec.nil
  | [a] => InsertSpec.keep a [] [] (by simp [matchesAt]) InsertSpec.nil
  | [a, b] => InsertSpec.keep a [b] [b] (by simp [matchesAt])
      (InsertSpec.keep b [] [] (by simp [matchesAt]) InsertSpec.nil)
  | a :: b :: c :: rest => by
      by_cases h : (punctChar a && (b = ' ') && cls c) = true
      · have hsplit := (by simpa [Bool.and_eq_true, decide_eq_true_eq] using h :
          (punctChar a = true ∧ b = ' ') ∧ cls c = true)
        obtain ⟨⟨hp, hb⟩, hc⟩ := hsplit
        subst hb
        have ih := insertSpec_inserirQuebras cls rest
        have hrw : inserirQuebras cls (a :: ' ' :: c :: rest)
            = a :: '\n' :: '\n' :: c :: inserirQuebras cls rest := by
          simp [inserirQuebras, hp, hc]
        rw [hrw]
        exact InsertSpec.brk a c rest _ hp hc ih
      · have h2 : (punctChar a && decide (b = ' ') && cls c) = false := by
          simpa using h
        have ih := insertSpec_inserirQuebras cls (b :: c :: rest)
        have hrw : inserirQuebras cls (a :: b :: c :: rest)
            = a :: inserirQuebras cls (b :: c :: rest) := by
          simp [inserirQuebras, h2]
        rw [hrw]
        refine InsertSpec.keep a (b :: c :: rest) _ ?_ ih
        simpa [matchesAt] using h2

/-! ## Helper lemma for the startup trace -/

theorem cleanupCheck_not_init (st : AppState) (lr : Option String) :
    Action.cleanupCheck ∉ (init_vector_store st lr).2 := by
  by_cases h1 : st.vectorStoreLoaded
  · simp [init_vector_store, h1]
  · by_cases h2 : (st.vdir.present && !st.vdir.files.isEmpty) = true
    · cases lr with
      | none => simp [init_vector_store, h1, h2]
      | some e =>
        by_cases h3 : tenantSignature e
        · simp [init_vector_store, open_failure_handler, h1, h2, h3]
        · simp [init_vector_store, open_failure_handler, h1, h2, h3]
    · simp [init_vector_store, h1, h2]

/-! ## Claim theorems -/

/-- C1, counterexample. On a startup whose persisted directory still holds the
`tenant_error.flag` marker of a previous session, the trace of `main` performs
the `load_vector_store` call (inside the first `initialize_vector_store`, line
620) strictly before `cleanup_orphaned_vectordb` (line 641) runs: the claim's
ordering property fails on this concrete startup state. -/
theorem C1_counterexample : ¬ noLoadBeforeCleanup (main_trace stStart none).2 := by
  intro h
  have h0 : (main_trace stStart none).2[0]? = some Action.loadStore := by decide
  have h1 : (main_trace stStart none).2[1]? = some Action.cleanupCheck := by decide
  exact absurd (h 0 1 h0 h1) (by omega)

/-- C1, amended. In every startup run of `main`, `cleanup_orphaned_vectordb`
runs exactly once, after the first `initialize_vector_store` call and before
the second one; whenever no handle is held and the persisted directory has
content, the first action of the run is the `load_vector_store` attempt, so
the wipe-and-recreate is not guaranteed to precede the first index open. -/
theorem C1_cleanup_after_first_open (st : AppState) (loadResult : Option String) :
    ∃ pre post,
      (main_trace st loadResult).2 = pre ++ Action.cleanupCheck :: post ∧
      Action.cleanupCheck ∉ pre ∧ Action.cleanupCheck ∉ post ∧
      (st.vectorStoreLoaded = false →
        (st.vdir.present && !st.vdir.files.isEmpty) = true →
        pre.head? = some Action.loadStore) := by
  refine ⟨(init_vector_store st loadResult).2, _, rfl,
    cleanupCheck_not_init st loadResult, cleanupCheck_not_init _ _, ?_⟩
  intro h1 h2
  cases loadResult with
  | none => simp [init_vector_store, h1, h2]
  | some e => simp [init_vector_store, h1, h2]

/-- C1, witness: the amended statement evaluated on the concrete startup state
with a leftover marker file and a successful load. -/
theorem C1_witness :
    ∃ pre post,
      (main_trace stStart none).2 = pre ++ Action.cleanupCheck :: post ∧
      Action.cleanupCheck ∉ pre ∧ Action.cleanupCheck ∉ post ∧
      pre.head? = some Action.loadStore := by
  obtain ⟨pre, post, h1, h2, h3, h4⟩ := C1_cleanup_after_first_open stStart none
  exact ⟨pre, post, h1, h2, h3, h4 rfl (by decide)⟩

/-- C2, counterexample. For the concrete tenant-signature error `e0` raised by
`add_documents`, the handler in `process_uploaded_file` (lines 459-473) does
not wipe the persistent path and does not release the index handle: it only
sets the flags and surfaces the repair-needed error, so the claim's
"for every open or add failure" fails on the add path. -/
theorem C2_counterexample :
    tenantSignature e0 = true ∧
    Action.cleanStore ∉ (add_failure_handler st0 e0).1.2 ∧
    Action.releaseHandle ∉ (add_failure_handler st0 e0).1.2 ∧
    ((add_failure_handler st0 e0).1.1).vectorStoreLoaded = true := by
  refine ⟨by decide, by decide, by decide, by decide⟩

/-- C2, amended. On an open failure matching the tenant signature, the handler
sets the session flag, writes the marker file, wipes the persistent path,
surfaces the repair-needed state and releases the handle; on an add failure it
sets the session flag, writes the marker and surfaces the repair-needed state
and returns failure instead of crashing, deferring the wipe and handle release
to the pre-add check of the next upload (or the repair button). -/
theorem C2_tenant_error_handling (st : AppState) (e : String)
    (h : tenantSignature e = true) :
    (open_failure_handler st e).2
        = [.setSessionFlag, .writeFlagFile ("Error detected: " ++ e), .cleanStore,
           .surfaceRepair, .releaseHandle] ∧
    ((open_failure_handler st e).1).vectorStoreLoaded = false ∧
    ((open_failure_handler st e).1).tenantErrorDetected = true ∧
    (add_failure_handler st e).1.2
        = [.setSessionFlag, .writeFlagFile ("Error detected during processing: " ++ e),
           .surfaceRepair] ∧
    (add_failure_handler st e).2 = false ∧
    hasFlag ((add_failure_handler st e).1.1).vdir = true ∧
    (pre_add_check ((add_failure_handler st e).1.1)).2 = [.cleanStore, .releaseHandle] := by
  refine ⟨?_, ?_, ?_, ?_, ?_, ?_, ?_⟩ <;>
    simp [open_failure_handler, add_failure_handler, pre_add_check, writeFlag, hasFlag, h]

/-- C2, witness: the amended statement evaluated at the concrete error `e0`
over the state holding a live handle. -/
theorem C2_witness :
    (open_failure_handler st0 e0).2
        = [.setSessionFlag, .writeFlagFile ("Error detected: " ++ e0), .cleanStore,
           .surfaceRepair, .releaseHandle] ∧
    (pre_add_check ((add_failure_handler st0 e0).1.1)).2 = [.cleanStore, .releaseHandle] := by
  have h := C2_tenant_error_handling st0 e0 (by decide)
  exact ⟨h.1, h.2.2.2.2.2.2⟩

/-- C3, counterexample. A create call with a persist path that fails leaving
a partially written directory whose index file is locked: the cleanup's
`rmtree` raises, the inner `except` swallows the cleanup error, and the
partial state survives while the original error is re-raised — the claim's
unconditional "no partial persistent state survives" fails here. -/
theorem C3_counterexample :
    (create_vector_store (some dNew) (BackendOutcome.fail "disk error" dPartial) true).2
        = Except.error "disk error" ∧
    (create_vector_store (some dNew) (BackendOutcome.fail "disk error" dPartial) true).1
        ≠ some { present := true, files := [] } := by
  refine ⟨rfl, by decide⟩

/-- C3, amended. `create_vector_store` with a persist path, on an
embedding/storage failure, always re-raises the error rather than swallowing
it, after a best-effort cleanup: when the persist directory exists and the
cleanup's `rmtree` and `makedirs` succeed, the partially written path is
deleted and recreated empty, so no partial state survives; when the directory
does not exist the cleanup is skipped. -/
theorem C3_create_cleanup_reraise (d dirAfter : PDir) (e : String) (mkdirOk : Bool) :
    (create_vector_store (some d) (BackendOutcome.fail e dirAfter) mkdirOk).2 = .error e ∧
    (dirAfter.present = true →
      (dirAfter.files.filter (fun f => !f.deletable)).isEmpty = true →
      mkdirOk = true →
      (create_vector_store (some d) (BackendOutcome.fail e dirAfter) mkdirOk).1
        = some { present := true, files := [] }) ∧
    (dirAfter.present = false →
      (create_vector_store (some d) (BackendOutcome.fail e dirAfter) mkdirOk).1
        = some dirAfter) := by
  refine ⟨?_, ?_, ?_⟩
  · cases hp : dirAfter.present with
    | true =>
      cases hr : rmtreePersist dirAfter with
      | ok u => cases mkdirOk <;> simp [create_vector_store, hp, hr]
      | error d2 => simp [create_vector_store, hp, hr]
    | false => simp [create_vector_store, hp]
  · intro hp hdel hmk
    subst hmk
    have hr : rmtreePersist dirAfter = .ok () := by
      simp [rmtreePersist, hdel]
    simp [create_vector_store, hp, hr]
  · intro hp
    simp [create_vector_store, hp]

/-- C3, witness: the amended statement evaluated on a failing create whose
partially written directory is removable — the path ends recreated empty. -/
theorem C3_witness :
    (create_vector_store (some dNew) (BackendOutcome.fail "err" dClean) true).1
      = some { present := true, files := [] } :=
  (C3_create_cleanup_reraise dNew dClean "err" true).2.1 rfl (by decide) rfl

/-- C4, confirmed. `extrair_texto_pdf` raises the not-found error exactly when
the path does not exist, and on an existing path whose internal parse fails it
returns the empty string instead of raising. -/
theorem C4_extract_notfound_degrade (fs : PdfFS) (p : String) :
    ((∃ e, extrair_texto_pdf fs p = .error e) ↔ p ∉ fs.files) ∧
    (p ∈ fs.files → fs.parse p = none → extrair_texto_pdf fs p = .ok "") := by
  by_cases hm : p ∈ fs.files
  · cases hp : fs.parse p <;> simp [extrair_texto_pdf, hm, hp]
  · simp [extrair_texto_pdf, hm]

/-- C4, witness: on the concrete file system `fsA`, the existing file with a
failing parse yields the empty string. -/
theorem C4_witness : extrair_texto_pdf fsA "a.pdf" = .ok "" :=
  (C4_extract_notfound_degrade fsA "a.pdf").2 (by decide) rfl

/-- C5, counterexample. For an empty document text, the code returns the
filename with every occurrence of `".pdf"` removed, not the filename with its
extension removed: on `"relatorio.pdf.pdf"` the code yields `"relatorio"`
while the stem is `"relatorio.pdf"`. -/
theorem C5_counterexample :
    (extract_document_metadata "" "relatorio.pdf.pdf" (fun _ => "")).title = "relatorio" ∧
    filenameStem "relatorio.pdf.pdf" = "relatorio.pdf" ∧
    ("relatorio" : String) ≠ "relatorio.pdf" := by
  refine ⟨by decide, by decide, by decide⟩

/-- C5, amended. For every document text shorter than 50 characters,
`extract_document_metadata` returns the filename with every occurrence of
`".pdf"` removed as the title and the fixed default summary, and performs no
language-model call, independently of the model. -/
theorem C5_short_text_default (document_content file_name : String) (llm : String → String)
    (h : document_content.length < 50) :
    extract_document_metadata document_content file_name llm
      = { title := ⟨replaceAll ".pdf".data [] file_name.data⟩,
          summary := defaultResumo, sentPrompt := none } := by
  rw [extract_document_metadata, if_pos (Or.inr h)]

/-- C5, witness: the amended statement evaluated at a concrete short text. -/
theorem C5_witness :
    extract_document_metadata "curto" "doc.pdf" (fun _ => "t\n\ns")
      = { title := "doc", summary := defaultResumo, sentPrompt := none } := by
  rw [C5_short_text_default "curto" "doc.pdf" (fun _ => "t\n\ns") (by decide)]
  decide

/-- C6, counterexample. With a model that returns an empty response on a
50-character text, the whole response does not become the title: the code
substitutes the filename default `"doc"` for the empty title. -/
theorem C6_counterexample :
    (extract_document_metadata t50 "doc.pdf" (fun _ => "")).title = "doc" ∧
    ("doc" : String) ≠ "" := by
  refine ⟨by decide, by decide⟩

/-- C6, amended. For every document text of at least 50 characters, the model
is called exactly once, on the fixed prompt holding exactly the first 8000
characters of the text; the stripped response is split once at its first
blank line: with a separator the stripped first part becomes the title and
the stripped rest the summary, without one the whole stripped response
becomes the title (the filename default replacing an empty title) and the
summary is the fixed placeholder. -/
theorem C6_metadata_prompt_parse (document_content file_name : String) (llm : String → String)
    (h0 : ¬ document_content = "") (h : 50 ≤ document_content.length) :
    extract_document_metadata document_content file_name llm
      = (let p := metadataPrompt ⟨document_content.data.take 8000⟩
         let resp : List Char := pyStrip (llm p).data
         match splitBlank resp with
         | some (a, b) =>
             { title := nzTitle file_name ⟨pyStrip a⟩, summary := ⟨pyStrip b⟩,
               sentPrompt := some p }
         | none =>
             { title := nzTitle file_name ⟨pyStrip resp⟩, summary := resumoNaoDisponivel,
               sentPrompt := some p }) := by
  have hcond : ¬ (document_content = "" ∨ document_content.length < 50) := by
    rintro (hc | hc)
    · exact h0 hc
    · omega
  rw [extract_document_metadata, if_neg hcond]
  have htake : (if document_content.length > 8000
        then (⟨document_content.data.take 8000⟩ : String)
        else document_content) = ⟨document_content.data.take 8000⟩ := by
    by_cases hl : document_content.length > 8000
    · simp [hl]
    · have hle : document_content.data.length ≤ 8000 := by
        have : document_content.length = document_content.data.length := rfl
        omega
      simp [hl, List.take_of_length_le hle]
  rw [htake]
  cases hsb : splitBlank (pyStrip
      (llm (metadataPrompt ⟨document_content.data.take 8000⟩)).data) with
  | none => simp [pySplit1Blank, hsb, nzTitle]
  | some ab =>
    obtain ⟨a, b⟩ := ab
    simp [pySplit1Blank, hsb, nzTitle]

/-- C6, witness: the amended statement evaluated on a concrete text and a
model returning a title and summary separated by a blank line. -/
theorem C6_witness :
    (extract_document_metadata t50 "doc.pdf" (fun _ => "Titulo\n\nResumo")).title = "Titulo" := by
  have h := C6_metadata_prompt_parse t50 "doc.pdf" (fun _ => "Titulo\n\nResumo")
    (by decide) (by decide)
  rw [h]
  decide

/-- C7, counterexample. At the input `". Ü"` the output of `limpar_texto` is
not the claim's break insertion at uppercase letters applied to the collapsed
text: `Ü` is an uppercase letter, yet the code's class `[A-ZÀ-Ú]` excludes it,
so no paragraph break is inserted. -/
theorem C7_counterexample :
    ¬ InsertSpec isUpperLetter (collapseWs ". Ü".data) ((limpar_texto ". Ü").data) := by
  have h1 : collapseWs ". Ü".data = ['.', ' ', 'Ü'] := by decide
  have h2 : (limpar_texto ". Ü").data = ['.', ' ', 'Ü'] := by decide
  rw [h1, h2]
  intro h
  cases h with
  | keep a rest out hno hrec => exact absurd hno (by decide)

/-- C7, amended. `limpar_texto` maps every input to a string obtained by
collapsing all whitespace runs of the input to single spaces (none surviving
at either end) and then inserting a paragraph break exactly after each
occurrence of sentence-ending punctuation followed by a space and a character
of the class A-Z or À-Ú. -/
theorem C7_limpar_texto_formats (s : String) :
    isCollapsed (collapseWs s.data) = true ∧
    InsertSpec classeAZ (collapseWs s.data) ((limpar_texto s).data) :=
  ⟨isCollapsed_collapseWs s.data, insertSpec_inserirQuebras classeAZ (collapseWs s.data)⟩

/-- C8, confirmed. The RAG chain built by `initialize_rag_chain` answers by
passing to the model the fixed template filled with the rendered conversation
transcript, the retrieved chunks formatted as `DOCUMENTO [source]:` blocks
joined by blank lines, and the question; the retriever keeps at most the 15
most similar chunks, each coming from the store's ranking. -/
theorem C8_rag_prompt_assembly (vs : VectorStore) (llm : String → String)
    (memory : List ChatMsg) (render : List ChatMsg → String) (q : String) :
    init_rag_chain vs llm memory render q
      = llm (ragPromptTemplate (render memory)
          (String.intercalate "\n\n"
            (((vs.rank q).take 15).map
              (fun d => "DOCUMENTO [" ++ d.source.getD "Desconhecido" ++ "]:\n" ++ d.page_content)))
          q) ∧
    ((vs.rank q).take 15).length ≤ 15 ∧
    (∀ d, d ∈ (vs.rank q).take 15 → d ∈ vs.rank q) :=
  ⟨rfl, List.length_take_le 15 (vs.rank q), fun _ hd => List.take_subset 15 (vs.rank q) hd⟩

/-- C8, witness: the membership part evaluated on a concrete one-chunk store. -/
theorem C8_witness : dW ∈ vsW.rank "pergunta" :=
  (C8_rag_prompt_assembly vsW (fun s => s) [] (fun _ => "") "pergunta").2.2 dW (by decide)

/-- C9, confirmed. `force_clean_vectordb` on an absent or empty persistent
path leaves it existing and empty and returns success, and running it twice
in a row ends in the same state and result as running it once. -/
theorem C9_repair_idempotent (d : VDir) :
    ((d.present = false ∨ d.files = []) →
        force_clean_vectordb d = ({ present := true, files := [] }, true)) ∧
    force_clean_vectordb (force_clean_vectordb d).1 = force_clean_vectordb d := by
  constructor
  · rintro (h | h) <;> simp [force_clean_vectordb, rmtreeModel, h]
  · cases hp : d.present with
    | false => simp [force_clean_vectordb, rmtreeModel, hp]
    | true =>
      by_cases he : (d.files.filter (fun f => !f.deletable)).isEmpty
      · simp [force_clean_vectordb, rmtreeModel, hp, he]
      · have hff : (d.files.filter (fun f => !f.deletable)).filter (fun f => !f.deletable)
            = d.files.filter (fun f => !f.deletable) := by
          simp [List.filter_filter]
        simp [force_clean_vectordb, rmtreeModel, hp, he, hff]

/-- C9, witness: repairing an absent directory yields the empty directory and
success. -/
theorem C9_witness :
    force_clean_vectordb { present := false, files := [] }
      = ({ present := true, files := [] }, true) :=
  (C9_repair_idempotent { present := false, files := [] }).1 (Or.inl rfl)

/-- C10, confirmed. `process_pdf` is total by construction (every outcome is a
list); a missing path or a failing parse yields the empty list, and whenever
the extraction raises the not-found error it is caught inside `load_pdf` and
converted to the empty result rather than surfaced to the ingestion caller. -/
theorem C10_process_pdf_total (split : List Doc → List Doc) (fs : PdfFS) (p : String) :
    (p ∉ fs.files → process_pdf split fs p = []) ∧
    (fs.parse p = none → process_pdf split fs p = []) ∧
    (∀ e, extrair_texto_pdf fs p = .error e →
        load_pdf fs p = [] ∧ process_pdf split fs p = []) := by
  refine ⟨?_, ?_, ?_⟩
  · intro hm
    simp [process_pdf, load_pdf, extrair_texto_pdf, hm]
  · intro hp
    by_cases hm : p ∈ fs.files <;>
      simp [process_pdf, load_pdf, extrair_texto_pdf, hm, hp]
  · intro e he
    simp [process_pdf, load_pdf, he]

/-- C10, witness: a missing path on the concrete file system yields the empty
list. -/
theorem C10_witness : process_pdf id fsB "missing.pdf" = [] :=
  (C10_process_pdf_total id fsB "missing.pdf").1 (by decide)

end RagUmf
